import Mathlib

/-!
Shallow embedding of the `apsystems_ecu_proxy` message decoder and connection
handler (`src/api.py`, class `MySocketAPI`) together with the static model
catalog.  Frames are modelled as lists of characters (the wire protocol is
ASCII, so the decoded `utf-8` string and the raw bytes coincide position by
position).  Python `int(...)` and `datetime.strptime(..., "%Y%m%d%H%M%S")`
are modelled as `Option`-valued parsers; an exception raised inside the
`try` block of `data_received` corresponds to a `none`/`errored` outcome.
-/

/-- Python slice `message[a:b]` for `0 ≤ a ≤ b` (out-of-range indices clamp). -/
def pySlice (msg : List Char) (a b : ℕ) : List Char :=
  (msg.drop a).take (b - a)

/-- Numeric value of an ASCII digit. -/
def digitVal (c : Char) : ℕ := c.toNat - 48

/-- Whitespace characters stripped by Python `int(str)` (ASCII range). -/
def isPySpace (c : Char) : Bool :=
  c = ' ' || c = '\t' || c = '\n' || c = '\x0b' || c = '\x0c' || c = '\r'

/-- Digit run of a Python integer literal string: after the first digit,
single underscores may separate digit groups. Accumulates the value. -/
def digitsTail (acc : ℕ) : List Char → Option ℕ
  | [] => some acc
  | '_' :: c :: rest =>
      if c.isDigit then digitsTail (acc * 10 + digitVal c) rest else none
  | '_' :: [] => none
  | c :: rest =>
      if c.isDigit then digitsTail (acc * 10 + digitVal c) rest else none

/-- Nonempty digit run with optional embedded underscores. -/
def digitsVal : List Char → Option ℕ
  | [] => none
  | c :: rest => if c.isDigit then digitsTail (digitVal c) rest else none

/-- Python `int(s)` on an ASCII string: optional surrounding whitespace,
optional sign, then a nonempty digit run.  `none` models `ValueError`. -/
def pyInt (l : List Char) : Option ℤ :=
  let t := ((l.dropWhile isPySpace).reverse.dropWhile isPySpace).reverse
  match t with
  | '+' :: rest => (digitsVal rest).map Int.ofNat
  | '-' :: rest => (digitsVal rest).map (fun n => -(n : ℤ))
  | _ => (digitsVal t).map Int.ofNat

/-- Python true division `a / b` of two integers: the exact rational value.
(`Rat.divInt` is used rather than `/` so that concrete frames evaluate
inside the kernel; `Rat.divInt_eq_div` converts to ordinary division.) -/
def pyDiv (a b : ℤ) : ℚ := Rat.divInt a b

/-! ### `datetime.strptime(_, "%Y%m%d%H%M%S")`

CPython compiles the format to the regex
`(\d\d\d\d)(1[0-2]|0[1-9]|[1-9])(3[01]|[12]\d|0[1-9]|[1-9])(2[0-3]|[0-1]\d|\d)([0-5]\d|\d)(6[0-1]|[0-5]\d|\d)`,
takes the first match in backtracking priority order, raises if the input is
not fully consumed, and then the `datetime` constructor validates ranges
(year ≥ 1, day within the month, second ≤ 59).  Each `*Opts` function lists
the alternatives of one directive in regex priority order as
`(value, consumed)` pairs. -/

def yearOpts : List Char → List (ℕ × ℕ)
  | a :: b :: c :: d :: _ =>
      if a.isDigit ∧ b.isDigit ∧ c.isDigit ∧ d.isDigit then
        [(((digitVal a * 10 + digitVal b) * 10 + digitVal c) * 10 + digitVal d, 4)]
      else []
  | _ => []

def monthOpts : List Char → List (ℕ × ℕ)
  | a :: b :: _ =>
      (if a = '1' ∧ ('0' ≤ b ∧ b ≤ '2') then [(10 + digitVal b, 2)] else []) ++
      (if a = '0' ∧ ('1' ≤ b ∧ b ≤ '9') then [(digitVal b, 2)] else []) ++
      (if '1' ≤ a ∧ a ≤ '9' then [(digitVal a, 1)] else [])
  | a :: [] => if '1' ≤ a ∧ a ≤ '9' then [(digitVal a, 1)] else []
  | [] => []

def dayOpts : List Char → List (ℕ × ℕ)
  | a :: b :: _ =>
      (if a = '3' ∧ ('0' ≤ b ∧ b ≤ '1') then [(30 + digitVal b, 2)] else []) ++
      (if ('1' ≤ a ∧ a ≤ '2') ∧ b.isDigit then [(digitVal a * 10 + digitVal b, 2)] else []) ++
      (if a = '0' ∧ ('1' ≤ b ∧ b ≤ '9') then [(digitVal b, 2)] else []) ++
      (if '1' ≤ a ∧ a ≤ '9' then [(digitVal a, 1)] else [])
  | a :: [] => if '1' ≤ a ∧ a ≤ '9' then [(digitVal a, 1)] else []
  | [] => []

def hourOpts : List Char → List (ℕ × ℕ)
  | a :: b :: _ =>
      (if a = '2' ∧ ('0' ≤ b ∧ b ≤ '3') then [(20 + digitVal b, 2)] else []) ++
      (if ('0' ≤ a ∧ a ≤ '1') ∧ b.isDigit then [(digitVal a * 10 + digitVal b, 2)] else []) ++
      (if a.isDigit then [(digitVal a, 1)] else [])
  | a :: [] => if a.isDigit then [(digitVal a, 1)] else []
  | [] => []

def minuteOpts : List Char → List (ℕ × ℕ)
  | a :: b :: _ =>
      (if ('0' ≤ a ∧ a ≤ '5') ∧ b.isDigit then [(digitVal a * 10 + digitVal b, 2)] else []) ++
      (if a.isDigit then [(digitVal a, 1)] else [])
  | a :: [] => if a.isDigit then [(digitVal a, 1)] else []
  | [] => []

def secondOpts : List Char → List (ℕ × ℕ)
  | a :: b :: _ =>
      (if a = '6' ∧ ('0' ≤ b ∧ b ≤ '1') then [(60 + digitVal b, 2)] else []) ++
      (if ('0' ≤ a ∧ a ≤ '5') ∧ b.isDigit then [(digitVal a * 10 + digitVal b, 2)] else []) ++
      (if a.isDigit then [(digitVal a, 1)] else [])
  | a :: [] => if a.isDigit then [(digitVal a, 1)] else []
  | [] => []

/-- Parsed `datetime` value (microseconds are always zero here). -/
structure PyDateTime where
  year : ℕ
  month : ℕ
  day : ℕ
  hour : ℕ
  minute : ℕ
  second : ℕ
deriving DecidableEq, Repr

/-- First regex match of the six directives in backtracking priority order,
returning the six field values and the number of characters consumed. -/
def strptimeMatch (l : List Char) : Option (PyDateTime × ℕ) :=
  (yearOpts l).findSome? fun (y, n1) =>
  (monthOpts (l.drop n1)).findSome? fun (mo, n2) =>
  (dayOpts (l.drop (n1 + n2))).findSome? fun (d, n3) =>
  (hourOpts (l.drop (n1 + n2 + n3))).findSome? fun (h, n4) =>
  (minuteOpts (l.drop (n1 + n2 + n3 + n4))).findSome? fun (mi, n5) =>
  (secondOpts (l.drop (n1 + n2 + n3 + n4 + n5))).findSome? fun (s, n6) =>
  some (⟨y, mo, d, h, mi, s⟩, n1 + n2 + n3 + n4 + n5 + n6)

def isLeapYear (y : ℕ) : Bool :=
  y % 4 = 0 && (y % 100 ≠ 0 || y % 400 = 0)

def daysInMonth (y m : ℕ) : ℕ :=
  if m = 2 then (if isLeapYear y then 29 else 28)
  else if m = 4 ∨ m = 6 ∨ m = 9 ∨ m = 11 then 30
  else 31

/-- `datetime.strptime(l, "%Y%m%d%H%M%S")`; `none` models `ValueError`
(no regex match, unconverted trailing data, or constructor range check). -/
def py_strptime (l : List Char) : Option PyDateTime :=
  match strptimeMatch l with
  | none => none
  | some (dt, n) =>
      if n = l.length then
        if 1 ≤ dt.year ∧ dt.year ≤ 9999 ∧ 1 ≤ dt.month ∧ dt.month ≤ 12 ∧
           1 ≤ dt.day ∧ dt.day ≤ daysInMonth dt.year dt.month ∧
           dt.hour ≤ 23 ∧ dt.minute ≤ 59 ∧ dt.second ≤ 59 then
          some dt
        else none
      else none

def pad2 (n : ℕ) : String := if n < 10 then "0" ++ toString n else toString n

def pad4 (n : ℕ) : String :=
  if n < 10 then "000" ++ toString n
  else if n < 100 then "00" ++ toString n
  else if n < 1000 then "0" ++ toString n
  else toString n

/-- Python `str(datetime)` with zero microseconds: `YYYY-MM-DD HH:MM:SS`. -/
def pyDateTimeStr (d : PyDateTime) : String :=
  pad4 d.year ++ "-" ++ pad2 d.month ++ "-" ++ pad2 d.day ++ " " ++
  pad2 d.hour ++ ":" ++ pad2 d.minute ++ ":" ++ pad2 d.second

/-- Seconds since 0001-01-01 00:00:00 in the proleptic Gregorian calendar,
used only to talk about frame age in the specification's staleness claim. -/
def toEpochSecs (dt : PyDateTime) : ℕ :=
  let y := dt.year - 1
  let leaps := y / 4 - y / 100 + y / 400
  let daysBefore := (List.range (dt.month - 1)).foldl
    (fun a i => a + daysInMonth dt.year (i + 1)) 0
  let days := 365 * y + leaps + daysBefore + (dt.day - 1)
  days * 86400 + dt.hour * 3600 + dt.minute * 60 + dt.second

/-! ### Model catalog (module-level tables of `api.py`) -/

def ECU_MODELS_216 : List (List Char × String) :=
  [("2160".toList, "ECU-R"), ("2162".toList, "ECU-R Pro"), ("2163".toList, "ECU-B")]

def ECU_MODELS_215 : List (List Char × String) :=
  [("215".toList, "ECU-C")]

def YC600_MODEL_CODES : List (List Char) :=
  ["406".toList, "407".toList, "408".toList, "409".toList, "703".toList, "706".toList]

def QS1_MODEL_CODES : List (List Char) :=
  ["801".toList, "802".toList, "806".toList]

def YC1000_MODEL_CODES : List (List Char) :=
  ["501".toList, "502".toList, "503".toList, "504".toList]

def POWER_CHANNELS : List ℕ := [63, 83, 103, 123]
def VOLTAGE_CHANNELS : List ℕ := [51, 71, 91, 111]
def CURRENT_CHANNELS : List ℕ := [60, 80, 100, 120]

structure InverterModel where
  name : String
  channels : ℕ
  model_codes : List (List Char)
deriving DecidableEq, Repr

def INVERTER_MODELS : List InverterModel :=
  [⟨"YC600/DS3 series", 2, YC600_MODEL_CODES⟩,
   ⟨"QS1", 4, QS1_MODEL_CODES⟩,
   ⟨"YC1000/QT2", 4, YC1000_MODEL_CODES⟩]

/-- Python `dict.get` on an association list with unique keys. -/
def lookupTbl (tbl : List (List Char × String)) (k : List Char) : Option String :=
  (tbl.find? (fun p => p.1 == k)).map (fun p => p.2)

/-- Python `a or b` on `str | None` values: `a` unless it is `None` or `""`. -/
def pyStrOr (a b : Option String) : Option String :=
  match a with
  | some s => if s = "" then b else some s
  | none => b

/-- `MySocketAPI.get_model`: exact 4-character table first, then the
3-character-prefix table, else the sentinel `"Unknown"`. -/
def get_model (model_code : List Char) : String :=
  match pyStrOr (lookupTbl ECU_MODELS_216 model_code)
      (lookupTbl ECU_MODELS_215 (model_code.take 3)) with
  | some m => if m = "" then "Unknown" else m
  | none => "Unknown"

/-! ### Inverter extraction (`MySocketAPI.get_inverters`) -/

/-- Decoded per-inverter record (the `inverter` dict of the source; every
inserted record has all nine keys set). -/
structure Inverter where
  uid : List Char
  index : ℕ
  temperature : ℤ
  frequency : ℚ
  model : String
  channel_qty : ℕ
  power : List ℤ
  voltage : List ℚ
  current : List ℚ
deriving DecidableEq, Repr

/-- Insertion-ordered dict from inverter uid to record.  Keys are unique by
construction, so Python dict assignment is: replace in place if the key is
present, else append. -/
def InvDict := List (List Char × Inverter)
deriving DecidableEq

def dictInsert : List (List Char × Inverter) → List Char → Inverter →
    List (List Char × Inverter)
  | [], k, v => [(k, v)]
  | p :: rest, k, v => if p.1 = k then (k, v) :: rest else p :: dictInsert rest k v

def dictGet : List (List Char × Inverter) → List Char → Option Inverter
  | [], _ => none
  | p :: rest, k => if p.1 = k then some p.2 else dictGet rest k

/-- Length of the maximal leading digit run. -/
def countDigits : List Char → ℕ
  | [] => 0
  | c :: rest => if c.isDigit then countDigits rest + 1 else 0

/-- Fuelled scan for `re.finditer(r"END\d+", message)`: leftmost,
non-overlapping matches with a greedy digit run; returns start positions.
The fuel only bounds recursion; `l.length` fuel always suffices. -/
def endMatchesF : ℕ → List Char → ℕ → List ℕ
  | 0, _, _ => []
  | fuel + 1, l, i =>
      match l with
      | 'E' :: 'N' :: 'D' :: tl =>
          let d := countDigits tl
          if d = 0 then endMatchesF fuel ('N' :: 'D' :: tl) (i + 1)
          else i :: endMatchesF fuel (tl.drop d) (i + 3 + d)
      | _ :: rest => endMatchesF fuel rest (i + 1)
      | [] => []

/-- Start positions of the `END\d+` matches in `message`. -/
def endMatches (message : List Char) : List ℕ :=
  endMatchesF message.length message 0

/-- Inverter uid of the match starting at `s`: `message[s+3 : s+15]`. -/
def uidAt (message : List Char) (s : ℕ) : List Char :=
  pySlice message (s + 3) (s + 15)

/-- Inverter model code of the match starting at `s`: `message[s+3 : s+6]`
(the first three characters of the uid). -/
def codeAt (message : List Char) (s : ℕ) : List Char :=
  pySlice message (s + 3) (s + 6)

/-- Record built for a resolved model `mr` from the match at `s` with
enumeration index `idx`: temperature is raw − 100, frequency raw ÷ 10,
power raw (unscaled), voltage raw ÷ 10, current raw ÷ 100, with
`mr.channels` leading entries of each channel offset table. -/
def builtInverter (message : List Char) (idx s : ℕ) (mr : InverterModel) :
    Option Inverter := do
  let temperature ← pyInt (pySlice message (s + 25) (s + 28))
  let frequency ← pyInt (pySlice message (s + 20) (s + 25))
  let power ← (POWER_CHANNELS.take mr.channels).mapM
    (fun off => pyInt (pySlice message (s + off) (s + off + 3)))
  let voltage ← (VOLTAGE_CHANNELS.take mr.channels).mapM
    (fun off => pyInt (pySlice message (s + off) (s + off + 3)))
  let current ← (CURRENT_CHANNELS.take mr.channels).mapM
    (fun off => pyInt (pySlice message (s + off) (s + off + 3)))
  pure { uid := uidAt message s, index := idx,
         temperature := temperature - 100,
         frequency := pyDiv frequency 10,
         model := mr.name, channel_qty := mr.channels,
         power := power,
         voltage := voltage.map (fun n => pyDiv n 10),
         current := current.map (fun n => pyDiv n 100) }

/-- One iteration of the `for idx, m in enumerate(...)` loop.  The source
converts the temperature and frequency fields with `int(...)` before the
model loop, so an unparseable field raises (`none`) even when no model code
resolves; `builtInverter` re-reads the same pure slices. -/
def processMatch (message : List Char) (acc : List (List Char × Inverter))
    (idx s : ℕ) : Option (List (List Char × Inverter)) := do
  let _ ← pyInt (pySlice message (s + 25) (s + 28))
  let _ ← pyInt (pySlice message (s + 20) (s + 25))
  INVERTER_MODELS.foldlM
    (fun d mr =>
      if codeAt message s ∈ mr.model_codes then do
        let inv ← builtInverter message idx s mr
        pure (dictInsert d (uidAt message s) inv)
      else pure d)
    acc

/-- Enumerated fold of `processMatch` over the match start positions. -/
def get_inverters_go (message : List Char) :
    ℕ → List ℕ → List (List Char × Inverter) →
    Option (List (List Char × Inverter))
  | _, [], acc => some acc
  | idx, s :: rest, acc =>
      match processMatch message acc idx s with
      | none => none
      | some acc' => get_inverters_go message (idx + 1) rest acc'

/-- `MySocketAPI.get_inverters`; `none` models an exception escaping the
loop (an unparseable `int(...)` field). -/
def get_inverters (message : List Char) :
    Option (List (List Char × Inverter)) :=
  get_inverters_go message 0 (endMatches message) []

/-! ### The per-connection `data_received` loop -/

/-- Contents of the single `ecu` dict of `data_received`.  The dict is
created once per connection (before the `while True` loop) and mutated key
by key, so fields are optional: a key is `none` until first assigned. -/
structure EcuDict where
  timestamp : Option String := none
  ecu_id : Option (List Char) := none
  model : Option String := none
  lifetime_energy : Option ℚ := none
  daily_energy : Option ℚ := none
  lifetime_energy_production : Option ℚ := none
  current_power : Option ℚ := none
  qty_of_online_inverters : Option ℤ := none
  inverters : Option (List (List Char × Inverter)) := none
deriving DecidableEq, Repr

def EcuDict.empty : EcuDict := {}

/-- Result of the decoding portion of one loop iteration. -/
inductive DecodeStep where
  /-- `message[0:7] != "APS18AA"`: frame silently skipped, loop continues. -/
  | notRecognized : DecodeStep
  /-- `int(message[7:10]) != len(message) - 1`: logged, `return None`. -/
  | checksumMismatch : DecodeStep
  /-- an exception was raised and caught; `e` is the dict as mutated so far,
  and the handler does `return None`. -/
  | errored (e : EcuDict) : DecodeStep
  /-- all fields decoded; `e` is the fully updated dict. -/
  | decoded (e : EcuDict) : DecodeStep
deriving DecidableEq, Repr

/-- Decoding portion of one `data_received` iteration, mirroring the source
statement by statement (`src/api.py` lines 84–109).  Consecutive infallible
dict assignments are grouped into one record update. -/
def decodeEcu (ecu : EcuDict) (message : List Char) : DecodeStep :=
  if pySlice message 0 7 = "APS18AA".toList then
    match pyInt (pySlice message 7 10) with
    | none => .errored ecu
    | some chk =>
      if chk ≠ (message.length : ℤ) - 1 then .checksumMismatch
      else
        match py_strptime (pySlice message 60 74) with
        | none => .errored ecu
        | some dt =>
          let e3 : EcuDict :=
            { ecu with timestamp := some (pyDateTimeStr dt),
                       ecu_id := some (pySlice message 18 30),
                       model := some (get_model (pySlice message 18 22)) }
          match pyInt (pySlice message 42 60) with
          | none => .errored e3
          | some le =>
            let e6 : EcuDict :=
              { e3 with lifetime_energy := some (pyDiv le 10),
                        daily_energy := some 0,
                        lifetime_energy_production := some 0 }
            match pyInt (pySlice message 30 42) with
            | none => .errored e6
            | some cp =>
              let e7 : EcuDict := { e6 with current_power := some (pyDiv cp 100) }
              match pyInt (pySlice message 74 77) with
              | none => .errored e7
              | some q =>
                let e8 : EcuDict := { e7 with qty_of_online_inverters := some q }
                match get_inverters message with
                | none => .errored e8
                | some invs => .decoded { e8 with inverters := some invs }
  else .notRecognized

/-- Outcome of `await self.send_data_to_ema(self.port, data)`:
either a response, or an exception (connect/write/read failure). -/
inductive ForwardResult where
  | ok (resp : List Char) : ForwardResult
  | fail : ForwardResult
deriving DecidableEq, Repr

/-- Outcome of one full loop iteration of `data_received` on one frame. -/
inductive MsgOutcome where
  /-- magic mismatch: nothing happens, the loop issues the next read. -/
  | notRecognized : MsgOutcome
  /-- checksum mismatch: `return None`, ending the handler. -/
  | checksumMismatch : MsgOutcome
  /-- exception caught (field parse or forwarding failure): `return None`,
  ending the handler; `e` is the dict contents at that point. -/
  | errored (e : EcuDict) : MsgOutcome
  /-- response written back, then `self.callback(ecu)` with contents `e`;
  the loop issues the next read. -/
  | emitted (e : EcuDict) : MsgOutcome
deriving DecidableEq, Repr

/-- One full iteration: decode, then forward, then write back and invoke the
callback.  Forwarding runs after every dict field was assigned and before
the callback, inside the same `try` block. -/
def processMessage (ecu : EcuDict) (message : List Char) (fwd : ForwardResult) :
    MsgOutcome :=
  match decodeEcu ecu message with
  | .notRecognized => .notRecognized
  | .checksumMismatch => .checksumMismatch
  | .errored e => .errored e
  | .decoded e =>
      match fwd with
      | .fail => .errored e
      | .ok _ => .emitted e

/-- The `while True` read loop of one connection, driven by the list of
(frame, forwarding outcome) pairs the environment delivers; the end of the
list is an orderly disconnect.  Returns the list of dict snapshots passed
to the callback (one per emission, all aliases of the same dict object) and
the final contents of that shared dict. -/
def runConn (ecu : EcuDict) :
    List (List Char × ForwardResult) → List EcuDict × EcuDict
  | [] => ([], ecu)
  | (msg, fwd) :: rest =>
      match processMessage ecu msg fwd with
      | .notRecognized => runConn ecu rest
      | .checksumMismatch => ([], ecu)
      | .errored e => ([], e)
      | .emitted e =>
          let (ems, fin) := runConn e rest
          (e :: ems, fin)

/-- Plain decode of a single frame from a fresh connection state with a
successful forwarder, the common case used by concrete evaluations. -/
def decodeFrame (message : List Char) : MsgOutcome :=
  processMessage EcuDict.empty message (ForwardResult.ok [])

/-! ### Concrete frames used by the claim theorems

Layout of a valid frame: magic `APS18AA` (0–7), checksum = length − 1
(7–10), filler (10–18), ecu-id (18–30, model code 18–22), current power
(30–42), lifetime energy (42–60), timestamp (60–74), online inverter count
(74–77), then inverter blocks.  An `END\d+` match at position `s` has its
fields at `s+3..s+15` (uid, whose first 3 characters are the model code),
`s+20..s+25` (frequency), `s+25..s+28` (temperature) and per-channel
3-character fields at the `*_CHANNELS` offsets relative to `s`. -/

def frameOne : List Char :=
  ("APS18AA" ++ "162" ++ "xxxxxxxx" ++ "216012345678" ++ "000000012345" ++
   "000000000001234567" ++ "20240601120000" ++ "001" ++
   "END406000111222" ++ "xxxxx" ++ "00500" ++ "135" ++
   "xxxxxxxxxxxxxxxxxxxxxxx" ++ "123" ++ "xxxxxx" ++ "123" ++ "123" ++
   "xxxxx" ++ "234" ++ "xxxxxx" ++ "234" ++ "234").toList

def invOne : Inverter :=
  { uid := "406000111222".toList, index := 0, temperature := 35,
    frequency := pyDiv 500 10,
    model := "YC600/DS3 series", channel_qty := 2, power := [123, 234],
    voltage := [pyDiv 123 10, pyDiv 234 10],
    current := [pyDiv 123 100, pyDiv 234 100] }

def readingOne : EcuDict :=
  { timestamp := some "2024-06-01 12:00:00", ecu_id := some "216012345678".toList,
    model := some "ECU-R", lifetime_energy := some (pyDiv 1234567 10),
    daily_energy := some 0, lifetime_energy_production := some 0,
    current_power := some (pyDiv 12345 100), qty_of_online_inverters := some 1,
    inverters := some [("406000111222".toList, invOne)] }

/-- Two inverter blocks carrying the same uid `406000111222` but different
field values (temperatures 35 and 40, and so on). -/
def frameTwo : List Char :=
  ("APS18AA" ++ "248" ++ "xxxxxxxx" ++ "216012345678" ++ "000000012345" ++
   "000000000001234567" ++ "20240601120000" ++ "002" ++
   "END406000111222" ++ "xxxxx" ++ "00500" ++ "135" ++
   "xxxxxxxxxxxxxxxxxxxxxxx" ++ "123" ++ "xxxxxx" ++ "123" ++ "123" ++
   "xxxxx" ++ "234" ++ "xxxxxx" ++ "234" ++ "234" ++
   "END406000111222" ++ "xxxxx" ++ "00600" ++ "140" ++
   "xxxxxxxxxxxxxxxxxxxxxxx" ++ "111" ++ "xxxxxx" ++ "333" ++ "555" ++
   "xxxxx" ++ "222" ++ "xxxxxx" ++ "444" ++ "666").toList

/-- The record of the second (rightmost) occurrence in `frameTwo`. -/
def invTwoLater : Inverter :=
  { uid := "406000111222".toList, index := 1, temperature := 40,
    frequency := pyDiv 600 10,
    model := "YC600/DS3 series", channel_qty := 2, power := [555, 666],
    voltage := [pyDiv 111 10, pyDiv 222 10],
    current := [pyDiv 333 100, pyDiv 444 100] }

def readingTwo : EcuDict :=
  { timestamp := some "2024-06-01 12:00:00", ecu_id := some "216012345678".toList,
    model := some "ECU-R", lifetime_energy := some (pyDiv 1234567 10),
    daily_energy := some 0, lifetime_energy_production := some 0,
    current_power := some (pyDiv 12345 100), qty_of_online_inverters := some 2,
    inverters := some [("406000111222".toList, invTwoLater)] }

/-- `frameOne` with its timestamp replaced by 2000-01-01 00:00:00, far more
than 600 seconds in the past of any plausible current time. -/
def frameStale : List Char :=
  ("APS18AA" ++ "162" ++ "xxxxxxxx" ++ "216012345678" ++ "000000012345" ++
   "000000000001234567" ++ "20000101000000" ++ "001" ++
   "END406000111222" ++ "xxxxx" ++ "00500" ++ "135" ++
   "xxxxxxxxxxxxxxxxxxxxxxx" ++ "123" ++ "xxxxxx" ++ "123" ++ "123" ++
   "xxxxx" ++ "234" ++ "xxxxxx" ++ "234" ++ "234").toList

def readingStale : EcuDict :=
  { readingOne with timestamp := some "2000-01-01 00:00:00" }

/-- `frameOne` with the unregistered ECU model code `9999`. -/
def frameUnknownModel : List Char :=
  ("APS18AA" ++ "162" ++ "xxxxxxxx" ++ "999912345678" ++ "000000012345" ++
   "000000000001234567" ++ "20240601120000" ++ "001" ++
   "END406000111222" ++ "xxxxx" ++ "00500" ++ "135" ++
   "xxxxxxxxxxxxxxxxxxxxxxx" ++ "123" ++ "xxxxxx" ++ "123" ++ "123" ++
   "xxxxx" ++ "234" ++ "xxxxxx" ++ "234" ++ "234").toList

def readingUnknownModel : EcuDict :=
  { readingOne with ecu_id := some "999912345678".toList,
                    model := some "Unknown" }

/-- A frame built after the specification's literal end-to-end scenario: the
inverter data (uid `406000111222`, hence model code `406`) comes first and
the block is terminated by the trailing token `END1`.  The checksum `099`
is correct (`int("099") = 99 = 100 − 1`). -/
def frameEndOne : List Char :=
  ("APS18AA" ++ "099" ++ "xxxxxxxx" ++ "216012345678" ++ "000000012345" ++
   "000000000001234567" ++ "20240601120000" ++ "001" ++
   "406000111222" ++ "xxxxxxx" ++ "END1").toList

/-- Dict contents at the point where decoding `frameEndOne` raises: the
`END1` match at position 96 reads its temperature field past the end of the
frame, `int("")` raises, and no reading is emitted. -/
def dictEndOne : EcuDict :=
  { timestamp := some "2024-06-01 12:00:00", ecu_id := some "216012345678".toList,
    model := some "ECU-R", lifetime_energy := some (pyDiv 1234567 10),
    daily_energy := some 0, lifetime_energy_production := some 0,
    current_power := some (pyDiv 12345 100), qty_of_online_inverters := some 1,
    inverters := none }

/-- A frame whose checksum field parses but does not match the length. -/
def frameBadChecksum : List Char := "APS18AA999".toList

/-- Modelled from the spec: "For all frames with a valid checksum, decode
yields `Stale` iff `now - timestamp > 600s`".  This predicate holds exactly
when the spec demands the frame be rejected as stale; the code under
`src/api.py` contains no such filter (the corresponding block is commented
out), so this definition exists only to be compared against the code. -/
def spec_stale_reject (now : ℕ) (message : List Char) : Bool :=
  match py_strptime (pySlice message 60 74) with
  | some dt => decide (600 < now - toEpochSecs dt)
  | none => false

/-- A current time exactly 601 seconds after `frameStale`'s timestamp. -/
def staleNow : ℕ := toEpochSecs ⟨2000, 1, 1, 0, 10, 1⟩

/-- Channel-array well-formedness of a decoded inverter record: the three
per-channel arrays have exactly `channel_qty` entries, and the channel
count is the 2 or 4 of its catalog model. -/
@[reducible] def goodInverter (inv : Inverter) : Prop :=
  inv.power.length = inv.channel_qty ∧ inv.voltage.length = inv.channel_qty ∧
  inv.current.length = inv.channel_qty ∧ (inv.channel_qty = 2 ∨ inv.channel_qty = 4)

/-- The model code of the match at `s` resolves in the inverter catalog. -/
@[reducible] def resolvesAt (message : List Char) (s : ℕ) : Prop :=
  ∃ mr ∈ INVERTER_MODELS, codeAt message s ∈ mr.model_codes

/-! ### Helper lemmas -/

set_option maxRecDepth 100000

/-- Inversion of a successful decode: every guard passed, every field
parsed, and the resulting dict has all nine keys freshly assigned. -/
theorem decodeEcu_decoded_inversion {ecu : EcuDict} {message : List Char}
    {e : EcuDict} (h : decodeEcu ecu message = .decoded e) :
    pySlice message 0 7 = "APS18AA".toList ∧
    pyInt (pySlice message 7 10) = some ((message.length : ℤ) - 1) ∧
    ∃ dt le cp q invs,
      py_strptime (pySlice message 60 74) = some dt ∧
      pyInt (pySlice message 42 60) = some le ∧
      pyInt (pySlice message 30 42) = some cp ∧
      pyInt (pySlice message 74 77) = some q ∧
      get_inverters message = some invs ∧
      e = { timestamp := some (pyDateTimeStr dt),
            ecu_id := some (pySlice message 18 30),
            model := some (get_model (pySlice message 18 22)),
            lifetime_energy := some (pyDiv le 10),
            daily_energy := some 0,
            lifetime_energy_production := some 0,
            current_power := some (pyDiv cp 100),
            qty_of_online_inverters := some q,
            inverters := some invs } := by
  simp only [decodeEcu] at h
  by_cases hm : pySlice message 0 7 = "APS18AA".toList
  · rw [if_pos hm] at h
    cases hchk : pyInt (pySlice message 7 10) with
    | none => rw [hchk] at h; simp at h
    | some chk =>
      rw [hchk] at h
      dsimp only [] at h
      by_cases hne : chk ≠ (message.length : ℤ) - 1
      · rw [if_pos hne] at h; simp at h
      · rw [if_neg hne] at h
        push_neg at hne
        cases hdt : py_strptime (pySlice message 60 74) with
        | none => rw [hdt] at h; simp at h
        | some dt =>
          rw [hdt] at h
          dsimp only [] at h
          cases hle : pyInt (pySlice message 42 60) with
          | none => rw [hle] at h; simp at h
          | some le =>
            rw [hle] at h
            dsimp only [] at h
            cases hcp : pyInt (pySlice message 30 42) with
            | none => rw [hcp] at h; simp at h
            | some cp =>
              rw [hcp] at h
              dsimp only [] at h
              cases hq : pyInt (pySlice message 74 77) with
              | none => rw [hq] at h; simp at h
              | some q =>
                rw [hq] at h
                dsimp only [] at h
                cases hinv : get_inverters message with
                | none => rw [hinv] at h; simp at h
                | some invs =>
                  rw [hinv] at h
                  dsimp only [] at h
                  injection h with h
                  exact ⟨hm, by rw [hne], dt, le, cp, q, invs,
                    rfl, rfl, rfl, rfl, rfl, h.symm⟩
  · rw [if_neg hm] at h; simp at h

/-- Inversion of an emitted reading: the forwarder succeeded and the
emitted dict is the fully decoded one. -/
theorem processMessage_emitted_inversion {ecu : EcuDict} {message : List Char}
    {fwd : ForwardResult} {e : EcuDict}
    (h : processMessage ecu message fwd = .emitted e) :
    (∃ resp, fwd = .ok resp) ∧ decodeEcu ecu message = .decoded e := by
  unfold processMessage at h
  cases hd : decodeEcu ecu message with
  | notRecognized => rw [hd] at h; simp at h
  | checksumMismatch => rw [hd] at h; simp at h
  | errored e' => rw [hd] at h; simp at h
  | decoded e' =>
    rw [hd] at h
    cases fwd with
    | fail => simp at h
    | ok resp =>
      simp only [MsgOutcome.emitted.injEq] at h
      exact ⟨⟨resp, rfl⟩, by rw [h]⟩

/-- A successful decode overwrites every key of the dict, so its result does
not depend on the dict's previous contents. -/
theorem decodeEcu_decoded_congr {ecu ecu' : EcuDict} {message : List Char}
    {e : EcuDict} (h : decodeEcu ecu message = .decoded e) :
    decodeEcu ecu' message = .decoded e := by
  obtain ⟨hm, hchk, dt, le, cp, q, invs, hdt, hle, hcp, hq, hinv, he⟩ :=
    decodeEcu_decoded_inversion h
  simp only [decodeEcu]
  rw [if_pos hm, hchk]
  dsimp only []
  rw [if_neg (by simp), hdt]
  dsimp only []
  rw [hle]
  dsimp only []
  rw [hcp]
  dsimp only []
  rw [hq]
  dsimp only []
  rw [hinv]
  dsimp only []
  rw [he]

/-- Looking up the key just inserted returns the new value. -/
theorem dictGet_dictInsert_self (d : List (List Char × Inverter))
    (k : List Char) (v : Inverter) : dictGet (dictInsert d k v) k = some v := by
  induction d with
  | nil => simp [dictInsert, dictGet]
  | cons p rest ih =>
    by_cases hp : p.1 = k
    · simp [dictInsert, hp, dictGet]
    · simp [dictInsert, hp, dictGet, ih]

/-- Every entry after an insert is an old entry or the inserted pair. -/
theorem mem_dictInsert {d : List (List Char × Inverter)} {k : List Char}
    {v : Inverter} {e : List Char × Inverter} (h : e ∈ dictInsert d k v) :
    e ∈ d ∨ e = (k, v) := by
  induction d with
  | nil => simp [dictInsert] at h; right; exact h
  | cons p rest ih =>
    by_cases hp : p.1 = k
    · rw [dictInsert, if_pos hp] at h
      rcases List.mem_cons.mp h with h' | h'
      · right; exact h'
      · left; exact List.mem_cons_of_mem _ h'
    · rw [dictInsert, if_neg hp] at h
      rcases List.mem_cons.mp h with h' | h'
      · left; rw [h']; exact List.mem_cons_self _ _
      · rcases ih h' with h'' | h''
        · left; exact List.mem_cons_of_mem _ h''
        · right; exact h''

/-- Inserting a key absent from the dict appends one entry. -/
theorem length_dictInsert_fresh {d : List (List Char × Inverter)}
    {k : List Char} (v : Inverter) (h : ∀ e ∈ d, e.1 ≠ k) :
    (dictInsert d k v).length = d.length + 1 := by
  induction d with
  | nil => simp [dictInsert]
  | cons p rest ih =>
    have hp : p.1 ≠ k := h p (List.mem_cons_self _ _)
    rw [dictInsert, if_neg hp]
    simp only [List.length_cons]
    rw [ih (fun e he => h e (List.mem_cons_of_mem _ he))]

/-- `mapM` over `Option` preserves length on success. -/
theorem mapM_some_length {α β : Type} {f : α → Option β} :
    ∀ {l : List α} {l' : List β}, l.mapM f = some l' → l'.length = l.length := by
  intro l
  induction l with
  | nil =>
    intro l' h
    simp only [List.mapM_nil, pure, Option.some.injEq] at h
    rw [← h]
    rfl
  | cons a t ih =>
    intro l' h
    rw [List.mapM_cons] at h
    cases hfa : f a with
    | none => rw [hfa] at h; simp at h
    | some b =>
      rw [hfa] at h
      simp only [Option.bind_eq_bind, Option.some_bind] at h
      cases hbs : t.mapM f with
      | none => rw [hbs] at h; simp at h
      | some bs =>
        rw [hbs] at h
        simp only [Option.bind_eq_bind, Option.some_bind, pure,
          Option.some.injEq] at h
        rw [← h]
        simp [ih hbs]

/-- A built inverter record has well-formed channel arrays whose length is
its model's channel count. -/
theorem builtInverter_good {message : List Char} {idx s : ℕ} {mr : InverterModel}
    {inv : Inverter} (hmr : mr ∈ INVERTER_MODELS)
    (h : builtInverter message idx s mr = some inv) :
    goodInverter inv ∧ inv.channel_qty = mr.channels := by
  simp only [builtInverter, bind, Option.bind_eq_some, pure,
    Option.some.injEq] at h
  obtain ⟨t, ht, f, hf, p, hp, v, hv, c, hc, hinv⟩ := h
  have hpl := mapM_some_length hp
  have hvl := mapM_some_length hv
  have hcl := mapM_some_length hc
  subst hinv
  have hch : mr.channels = 2 ∨ mr.channels = 4 := by
    fin_cases hmr <;> simp
  have hmin : mr.channels ⊓ 4 = mr.channels := by
    rcases hch with h | h <;> simp [h]
  refine ⟨⟨?_, ?_, ?_, hch⟩, rfl⟩
  · simpa [POWER_CHANNELS, hmin] using hpl
  · simpa [VOLTAGE_CHANNELS, hmin] using hvl
  · simpa [CURRENT_CHANNELS, hmin] using hcl

/-- Characterization of the model loop without any resolution assumption:
every entry of the result is an old entry or a freshly built one. -/
theorem processMatch_fold_entries {message : List Char} {idx s : ℕ} :
    ∀ (ms : List InverterModel) (acc d : List (List Char × Inverter)),
      (ms.foldlM (fun d' mr =>
        if codeAt message s ∈ mr.model_codes then do
          let inv ← builtInverter message idx s mr
          pure (dictInsert d' (uidAt message s) inv)
        else pure d') acc) = some d →
      ∀ e ∈ d, e ∈ acc ∨
        ∃ mr ∈ ms, ∃ inv, builtInverter message idx s mr = some inv ∧
          e = (uidAt message s, inv) := by
  intro ms
  induction ms with
  | nil =>
    intro acc d h e he
    simp only [List.foldlM_nil, pure, Option.some.injEq] at h
    left
    rw [← h] at he
    exact he
  | cons mr ms ih =>
    intro acc d h e he
    rw [List.foldlM_cons] at h
    by_cases hcnd : codeAt message s ∈ mr.model_codes
    · rw [if_pos hcnd] at h
      cases hbi : builtInverter message idx s mr with
      | none => rw [hbi] at h; simp at h
      | some inv =>
        rw [hbi] at h
        simp only [bind, Option.bind_eq_bind, Option.some_bind, pure] at h
        rcases ih _ _ h e he with h' | ⟨mr', hmr', inv', hbi', he'⟩
        · rcases mem_dictInsert h' with h'' | h''
          · left; exact h''
          · right
            exact ⟨mr, List.mem_cons_self _ _, inv, hbi, h''⟩
        · right
          exact ⟨mr', List.mem_cons_of_mem _ hmr', inv', hbi', he'⟩
    · rw [if_neg hcnd] at h
      simp only [bind, Option.bind_eq_bind, Option.some_bind, pure] at h
      rcases ih _ _ h e he with h' | ⟨mr', hmr', inv', hbi', he'⟩
      · left; exact h'
      · right
        exact ⟨mr', List.mem_cons_of_mem _ hmr', inv', hbi', he'⟩

theorem processMatch_entries {message : List Char} {idx s : ℕ}
    {acc d : List (List Char × Inverter)}
    (h : processMatch message acc idx s = some d) :
    ∀ e ∈ d, e ∈ acc ∨
      ∃ mr ∈ INVERTER_MODELS, ∃ inv, builtInverter message idx s mr = some inv ∧
        e = (uidAt message s, inv) := by
  simp only [processMatch, bind, Option.bind_eq_some] at h
  obtain ⟨t, ht, f, hf, h⟩ := h
  exact processMatch_fold_entries INVERTER_MODELS acc d h

theorem processMatch_resolved {message : List Char} {idx s : ℕ}
    {mr : InverterModel} {acc d : List (List Char × Inverter)}
    (hmr : mr ∈ INVERTER_MODELS) (hc : codeAt message s ∈ mr.model_codes)
    (h : processMatch message acc idx s = some d) :
    ∃ inv, builtInverter message idx s mr = some inv ∧
      d = dictInsert acc (uidAt message s) inv := by
  simp only [processMatch, bind, Option.bind_eq_some] at h
  obtain ⟨t, ht, f, hf, h⟩ := h
  have d12 : ∀ x ∈ YC600_MODEL_CODES, x ∉ QS1_MODEL_CODES := by decide
  have d13 : ∀ x ∈ YC600_MODEL_CODES, x ∉ YC1000_MODEL_CODES := by decide
  have d21 : ∀ x ∈ QS1_MODEL_CODES, x ∉ YC600_MODEL_CODES := by decide
  have d23 : ∀ x ∈ QS1_MODEL_CODES, x ∉ YC1000_MODEL_CODES := by decide
  have d31 : ∀ x ∈ YC1000_MODEL_CODES, x ∉ YC600_MODEL_CODES := by decide
  have d32 : ∀ x ∈ YC1000_MODEL_CODES, x ∉ QS1_MODEL_CODES := by decide
  simp only [INVERTER_MODELS, List.mem_cons, List.not_mem_nil, or_false,
    List.mem_singleton] at hmr
  rcases hmr with rfl | rfl | rfl
  · have hc' : codeAt message s ∈ YC600_MODEL_CODES := by simpa using hc
    simp only [INVERTER_MODELS, List.foldlM_cons, List.foldlM_nil, bind,
      Option.bind_eq_bind, Option.bind_assoc, eq_true hc',
      eq_false (d12 _ hc'), eq_false (d13 _ hc'), if_true, if_false,
      Option.some_bind, pure] at h
    cases hbi : builtInverter message idx s
        ⟨"YC600/DS3 series", 2, YC600_MODEL_CODES⟩ with
    | none => rw [hbi] at h; simp at h
    | some inv =>
      rw [hbi] at h
      simp only [Option.some_bind, Option.some.injEq] at h
      exact ⟨inv, rfl, h.symm⟩
  · have hc' : codeAt message s ∈ QS1_MODEL_CODES := by simpa using hc
    simp only [INVERTER_MODELS, List.foldlM_cons, List.foldlM_nil, bind,
      Option.bind_eq_bind, Option.bind_assoc, eq_true hc',
      eq_false (d21 _ hc'), eq_false (d23 _ hc'), if_true, if_false,
      Option.some_bind, pure] at h
    cases hbi : builtInverter message idx s ⟨"QS1", 4, QS1_MODEL_CODES⟩ with
    | none => rw [hbi] at h; simp at h
    | some inv =>
      rw [hbi] at h
      simp only [Option.some_bind, Option.some.injEq] at h
      exact ⟨inv, rfl, h.symm⟩
  · have hc' : codeAt message s ∈ YC1000_MODEL_CODES := by simpa using hc
    simp only [INVERTER_MODELS, List.foldlM_cons, List.foldlM_nil, bind,
      Option.bind_eq_bind, Option.bind_assoc, eq_true hc',
      eq_false (d31 _ hc'), eq_false (d32 _ hc'), if_true, if_false,
      Option.some_bind, pure] at h
    cases hbi : builtInverter message idx s
        ⟨"YC1000/QT2", 4, YC1000_MODEL_CODES⟩ with
    | none => rw [hbi] at h; simp at h
    | some inv =>
      rw [hbi] at h
      simp only [Option.some_bind, Option.some.injEq] at h
      exact ⟨inv, rfl, h.symm⟩

/-- Defining equation of the match fold on the empty list. -/
theorem get_inverters_go_nil {message : List Char} (idx : ℕ)
    (acc : List (List Char × Inverter)) :
    get_inverters_go message idx [] acc = some acc := rfl

/-- Defining equation of the match fold on a cons cell. -/
theorem get_inverters_go_cons {message : List Char} (idx s : ℕ) (rest : List ℕ)
    (acc : List (List Char × Inverter)) :
    get_inverters_go message idx (s :: rest) acc =
      match processMatch message acc idx s with
      | none => none
      | some acc' => get_inverters_go message (idx + 1) rest acc' := rfl

/-- Every entry produced by the match loop is well formed, provided the
entries already accumulated are. -/
theorem get_inverters_go_good {message : List Char} :
    ∀ (ms : List ℕ) (idx : ℕ) (acc invs : List (List Char × Inverter)),
      get_inverters_go message idx ms acc = some invs →
      (∀ e ∈ acc, goodInverter e.2) → ∀ e ∈ invs, goodInverter e.2 := by
  intro ms
  induction ms with
  | nil =>
    intro idx acc invs h hacc
    rw [get_inverters_go_nil, Option.some.injEq] at h
    subst h
    exact hacc
  | cons s ms ih =>
    intro idx acc invs h hacc
    rw [get_inverters_go_cons] at h
    cases hpm : processMatch message acc idx s with
    | none => rw [hpm] at h; simp at h
    | some acc' =>
      rw [hpm] at h
      dsimp only [] at h
      refine ih (idx + 1) acc' invs h ?_
      intro e he
      rcases processMatch_entries hpm e he with h' | ⟨mr, hmr, inv, hbi, he'⟩
      · exact hacc e h'
      · rw [he']
        exact (builtInverter_good hmr hbi).1

/-- When every match resolves and the uids are pairwise distinct and fresh
with respect to the accumulator, each match adds exactly one entry. -/
theorem get_inverters_go_count {message : List Char} :
    ∀ (ms : List ℕ) (idx : ℕ) (acc invs : List (List Char × Inverter)),
      get_inverters_go message idx ms acc = some invs →
      (∀ s ∈ ms, resolvesAt message s) →
      ms.Pairwise (fun s t => uidAt message s ≠ uidAt message t) →
      (∀ s ∈ ms, ∀ e ∈ acc, e.1 ≠ uidAt message s) →
      invs.length = acc.length + ms.length := by
  intro ms
  induction ms with
  | nil =>
    intro idx acc invs h _ _ _
    rw [get_inverters_go_nil, Option.some.injEq] at h
    subst h
    simp
  | cons s ms ih =>
    intro idx acc invs h hres hpw hfresh
    rw [get_inverters_go_cons] at h
    cases hpm : processMatch message acc idx s with
    | none => rw [hpm] at h; simp at h
    | some acc' =>
      rw [hpm] at h
      dsimp only [] at h
      obtain ⟨mr, hmr, hc⟩ := hres s (List.mem_cons_self _ _)
      obtain ⟨inv, hbi, rfl⟩ := processMatch_resolved hmr hc hpm
      have hfs : ∀ e ∈ acc, e.1 ≠ uidAt message s :=
        hfresh s (List.mem_cons_self _ _)
      have hlen := length_dictInsert_fresh inv hfs
      have hpw' := List.pairwise_cons.mp hpw
      have hfresh' : ∀ t ∈ ms,
          ∀ e ∈ dictInsert acc (uidAt message s) inv, e.1 ≠ uidAt message t := by
        intro t ht e he
        rcases mem_dictInsert he with h' | h'
        · exact hfresh t (List.mem_cons_of_mem _ ht) e h'
        · rw [h']
          exact hpw'.1 t ht
      have := ih (idx + 1) _ invs h
        (fun t ht => hres t (List.mem_cons_of_mem _ ht)) hpw'.2 hfresh'
      rw [this, hlen, List.length_cons]
      omega

/-- Defining equation of the connection loop on the empty list. -/
theorem runConn_nil (ecu : EcuDict) : runConn ecu [] = ([], ecu) := rfl

/-- Defining equation of the connection loop on a cons cell. -/
theorem runConn_cons (ecu : EcuDict) (msg : List Char) (fwd : ForwardResult)
    (rest : List (List Char × ForwardResult)) :
    runConn ecu ((msg, fwd) :: rest) =
      match processMessage ecu msg fwd with
      | .notRecognized => runConn ecu rest
      | .checksumMismatch => ([], ecu)
      | .errored e => ([], e)
      | .emitted e =>
          let (ems, fin) := runConn e rest
          (e :: ems, fin) := rfl

/-! ### Claim theorems -/

/-- C10: every ECUReading emitted to the callback has `daily_energy` and
`lifetime_energy_production` set to the constant 0 regardless of the
frame's contents; the two fields are never derived from the wire format
(`src/api.py` lines 105–106 assign the literal 0). -/
theorem c10_zero_energy_fields (ecu r : EcuDict) (message : List Char)
    (fwd : ForwardResult) (h : processMessage ecu message fwd = .emitted r) :
    r.daily_energy = some 0 ∧ r.lifetime_energy_production = some 0 := by
  obtain ⟨_, _, dt, le, cp, q, invs, _, _, _, _, _, he⟩ :=
    decodeEcu_decoded_inversion (processMessage_emitted_inversion h).2
  rw [he]
  exact ⟨rfl, rfl⟩

/-- C10 witness: the fields of the concrete emitted reading of `frameOne`. -/
theorem c10_witness :
    readingOne.daily_energy = some 0 ∧
    readingOne.lifetime_energy_production = some 0 :=
  c10_zero_energy_fields EcuDict.empty readingOne frameOne
    (ForwardResult.ok []) (by decide)

/-- C4: for frames opening with the magic token, a reading is emitted only
when `int(message[7:10])` equals `len(message) - 1`, and a parsed checksum
different from `len(message) - 1` yields the checksum-mismatch outcome with
no reading emitted. -/
theorem c4_checksum_gate (ecu : EcuDict) (fwd : ForwardResult)
    (message : List Char)
    (hm : pySlice message 0 7 = "APS18AA".toList) :
    (∀ r, processMessage ecu message fwd = .emitted r →
      pyInt (pySlice message 7 10) = some ((message.length : ℤ) - 1)) ∧
    (∀ v, pyInt (pySlice message 7 10) = some v →
      v ≠ (message.length : ℤ) - 1 →
      processMessage ecu message fwd = .checksumMismatch) := by
  constructor
  · intro r h
    exact (decodeEcu_decoded_inversion
      (processMessage_emitted_inversion h).2).2.1
  · intro v hv hne
    have hd : decodeEcu ecu message = .checksumMismatch := by
      simp only [decodeEcu]
      rw [if_pos hm, hv]
      dsimp only []
      rw [if_pos hne]
    unfold processMessage
    rw [hd]

/-- C4 witness: the concrete frame `APS18AA999` (checksum 999, length 10)
is rejected as a checksum mismatch. -/
theorem c4_witness :
    processMessage EcuDict.empty frameBadChecksum (ForwardResult.ok []) =
      .checksumMismatch :=
  (c4_checksum_gate EcuDict.empty (ForwardResult.ok []) frameBadChecksum
    (by decide)).2 999 (by decide) (by decide)

/-- C7: ECU model resolution tries the exact 4-character table first (and
an exact hit always wins), falls back to the 3-character-prefix table
(`"2160"` ↦ `"ECU-R"`, `"2153"` ↦ `"ECU-C"`), resolves unregistered codes
to the sentinel `"Unknown"`, and a frame with an unknown ECU model code is
still decoded and emitted with `model = "Unknown"`. -/
theorem c7_model_resolution :
    get_model "2160".toList = "ECU-R" ∧
    get_model "2153".toList = "ECU-C" ∧
    (∀ code m, lookupTbl ECU_MODELS_216 code = some m → get_model code = m) ∧
    (∀ code, lookupTbl ECU_MODELS_216 code = none →
      lookupTbl ECU_MODELS_215 (code.take 3) = none →
      get_model code = "Unknown") ∧
    decodeFrame frameUnknownModel = .emitted readingUnknownModel ∧
    readingUnknownModel.model = some "Unknown" := by
  refine ⟨by decide, by decide, ?_, ?_, by decide, by decide⟩
  · intro code m h
    have hm : m ≠ "" := by
      obtain ⟨p, hfind, hp2⟩ := Option.map_eq_some'.mp h
      have hmem := List.mem_of_find?_eq_some hfind
      fin_cases hmem <;> rw [← hp2] <;> decide
    unfold get_model
    rw [h]
    unfold pyStrOr
    dsimp only []
    rw [if_neg hm]
    dsimp only []
    rw [if_neg hm]
  · intro code h1 h2
    unfold get_model
    rw [h1]
    unfold pyStrOr
    dsimp only []
    rw [h2]

/-- C7 witness: the unregistered code `9999` resolves to `"Unknown"`. -/
theorem c7_witness : get_model "9999".toList = "Unknown" :=
  c7_model_resolution.2.2.2.1 "9999".toList (by decide) (by decide)

/-- C1 counterexample: at a current time 601 seconds past the timestamp of
`frameStale` the specification's staleness rule demands the frame be
rejected as `Stale`, yet the decoder — which never consults a clock, the
staleness block in `data_received` being commented out — accepts the frame
and emits a full reading. -/
theorem c1_counterexample :
    spec_stale_reject staleNow frameStale = true ∧
    decodeFrame frameStale = .emitted readingStale := by
  constructor <;> decide

/-- C1 (amended): the decoder applies no staleness filter at all.  A
checksum-valid, parseable frame is decoded and its reading emitted to the
callback no matter how far the current time is past its timestamp: for
every `now` more than 600 seconds past `frameStale`'s timestamp, the spec's
rule demands rejection while the code still emits the reading. -/
theorem c1_no_staleness_filter (now : ℕ)
    (h : 600 < now - toEpochSecs ⟨2000, 1, 1, 0, 0, 0⟩) :
    spec_stale_reject now frameStale = true ∧
    decodeFrame frameStale = .emitted readingStale := by
  constructor
  · have hts : py_strptime (pySlice frameStale 60 74) =
        some ⟨2000, 1, 1, 0, 0, 0⟩ := by decide
    unfold spec_stale_reject
    rw [hts]
    simpa using h
  · decide

/-- C1 witness: a current time 1000 seconds past the frame's timestamp. -/
theorem c1_witness :
    spec_stale_reject (staleNow + 399) frameStale = true ∧
    decodeFrame frameStale = .emitted readingStale :=
  c1_no_staleness_filter (staleNow + 399) (by decide)

/-- C2 counterexample: after a checksum mismatch the handler returns,
ending the connection before reading further frames: the second frame of
the list, a perfectly valid one that on its own would be emitted, is never
processed and nothing is emitted on the connection. -/
theorem c2_counterexample :
    runConn EcuDict.empty
      [(frameBadChecksum, ForwardResult.ok []), (frameOne, ForwardResult.ok [])] =
      ([], EcuDict.empty) ∧
    processMessage EcuDict.empty frameOne (ForwardResult.ok []) =
      .emitted readingOne := by
  constructor <;> decide

/-- C2 (amended): only the magic mismatch (`NotRecognized`) is non-fatal —
the frame is skipped and the loop issues the next read.  A checksum
mismatch and any caught exception (unparseable field, forwarding failure)
make `data_received` return, so the handler stops reading and the
connection is over; there is no `Stale` outcome at all. -/
theorem c2_rejection_dispositions (ecu : EcuDict) (message : List Char)
    (fwd : ForwardResult) (rest : List (List Char × ForwardResult)) :
    (processMessage ecu message fwd = .notRecognized →
      runConn ecu ((message, fwd) :: rest) = runConn ecu rest) ∧
    (processMessage ecu message fwd = .checksumMismatch →
      runConn ecu ((message, fwd) :: rest) = ([], ecu)) ∧
    (∀ e, processMessage ecu message fwd = .errored e →
      runConn ecu ((message, fwd) :: rest) = ([], e)) := by
  refine ⟨fun h => ?_, fun h => ?_, fun e h => ?_⟩ <;> rw [runConn_cons, h]

/-- C2 witness: the checksum-mismatch disposition at a concrete frame with
a further valid frame pending. -/
theorem c2_witness :
    runConn EcuDict.empty
      [(frameBadChecksum, ForwardResult.ok []), (frameOne, ForwardResult.ok [])] =
      ([], EcuDict.empty) :=
  (c2_rejection_dispositions EcuDict.empty frameBadChecksum
    (ForwardResult.ok []) [(frameOne, ForwardResult.ok [])]).2.1 (by decide)

/-- C3 counterexample: with the upstream forwarder failing, the fully
decoded reading of `frameOne` is not passed to the callback — the
exception makes the handler return with the dict fully written but nothing
emitted, and the pending second frame is never read. -/
theorem c3_counterexample :
    processMessage EcuDict.empty frameOne ForwardResult.fail =
      .errored readingOne ∧
    runConn EcuDict.empty
      [(frameOne, ForwardResult.fail), (frameOne, ForwardResult.ok [])] =
      ([], readingOne) := by
  constructor <;> decide

/-- C3 (amended): `send_data_to_ema` runs inside the `try` block after
decoding and before the callback, so a forwarding failure turns what would
have been an emission into a caught exception: the dict holds the complete
decoded reading but the callback is never invoked and the handler returns,
ending the inbound connection. -/
theorem c3_forward_failure_drops_reading (ecu e : EcuDict)
    (message : List Char) (resp : List Char)
    (h : processMessage ecu message (.ok resp) = .emitted e) :
    processMessage ecu message .fail = .errored e ∧
    ∀ rest, runConn ecu ((message, ForwardResult.fail) :: rest) = ([], e) := by
  have hd := (processMessage_emitted_inversion h).2
  have h1 : processMessage ecu message .fail = .errored e := by
    unfold processMessage
    rw [hd]
  exact ⟨h1, fun rest => by rw [runConn_cons, h1]⟩

/-- C3 witness: the forwarding-failure disposition at `frameOne`. -/
theorem c3_witness :
    processMessage EcuDict.empty frameOne ForwardResult.fail =
      .errored readingOne :=
  (c3_forward_failure_drops_reading EcuDict.empty readingOne frameOne []
    (by decide)).1

/-- C5 counterexample: `frameTwo` carries two resolvable terminator matches
(k = 2), yet because both share the uid `406000111222` the dict keyed by
uid ends with a single entry, not k = 2. -/
theorem c5_counterexample :
    (endMatches frameTwo).length = 2 ∧
    (∀ s ∈ endMatches frameTwo, resolvesAt frameTwo s) ∧
    decodeFrame frameTwo = .emitted readingTwo ∧
    readingTwo.inverters = some [("406000111222".toList, invTwoLater)] ∧
    [("406000111222".toList, invTwoLater)].length = 1 := by
  refine ⟨by decide, by decide, by decide, by decide, by decide⟩

/-- C5 (amended): for an emitted reading whose terminator matches all
resolve in the catalog and whose uids are pairwise distinct, the inverters
mapping has exactly one entry per match, and every entry's power, voltage
and current arrays have length equal to its model's channel count (2 or 4).
Without the distinctness hypothesis, a repeated uid collapses entries
(see the counterexample). -/
theorem c5_inverter_count_and_channels (ecu : EcuDict) (fwd : ForwardResult)
    (message : List Char) (r : EcuDict) (invs : List (List Char × Inverter))
    (h : processMessage ecu message fwd = .emitted r)
    (hinvs : r.inverters = some invs)
    (hres : ∀ s ∈ endMatches message, resolvesAt message s)
    (hpw : (endMatches message).Pairwise
      (fun s t => uidAt message s ≠ uidAt message t)) :
    invs.length = (endMatches message).length ∧
    ∀ e ∈ invs, goodInverter e.2 := by
  obtain ⟨_, _, dt, le, cp, q, invs', hdt, hle, hcp, hq, hginv, he⟩ :=
    decodeEcu_decoded_inversion (processMessage_emitted_inversion h).2
  have hii : invs' = invs := by
    rw [he] at hinvs
    simpa using hinvs
  subst hii
  unfold get_inverters at hginv
  constructor
  · have := get_inverters_go_count (endMatches message) 0 [] invs' hginv hres
      hpw (fun s _ e he' => absurd he' (List.not_mem_nil e))
    simpa using this
  · exact get_inverters_go_good (endMatches message) 0 [] invs' hginv
      (fun e he' => absurd he' (List.not_mem_nil e))

/-- C5 witness: `frameOne` has one resolvable match with a distinct uid and
its emitted mapping has exactly one well-formed 2-channel entry. -/
theorem c5_witness :
    ([("406000111222".toList, invOne)] : List (List Char × Inverter)).length =
      (endMatches frameOne).length ∧
    ∀ e ∈ ([("406000111222".toList, invOne)] : List (List Char × Inverter)),
      goodInverter e.2 :=
  c5_inverter_count_and_channels EcuDict.empty (ForwardResult.ok []) frameOne
    readingOne [("406000111222".toList, invOne)] (by decide) (by decide)
    (by decide) (by decide)

/-- C6 counterexample: a frame built after the claim's literal scenario —
inverter data first, the block terminated by the trailing token `END1` —
does not decode to a reading at all: the decoder reads the inverter fields
forward from the `END` match, runs past the end of the frame, `int("")`
raises, and the handler returns with nothing emitted. -/
theorem c6_counterexample :
    decodeFrame frameEndOne = .errored dictEndOne ∧
    (runConn EcuDict.empty [(frameEndOne, ForwardResult.ok [])]).1 = [] := by
  constructor <;> decide

/-- C6 (amended): scale factors are as documented — ECU current power is
raw ÷ 100 and lifetime energy raw ÷ 10 for every emitted reading; and the
end-to-end scenario holds once the inverter block is laid out the way the
code reads it (fields following the `END` match, the uid beginning with the
model code): `frameOne` (magic, correct checksum 162, ECU model code 2160,
raw current power 12345, one block whose match yields model code 406)
decodes to current power 123.45 (= 12345⁄100), `ecu_model = "ECU-R"` and
exactly one inverter with `channel_qty = 2`, power `[123, 234]` unscaled,
voltage `[12.3, 23.4]` (raw ÷ 10) and current `[1.23, 2.34]` (raw ÷ 100). -/
theorem c6_scaling_and_end_to_end :
    (∀ (ecu : EcuDict) (message : List Char) (fwd : ForwardResult)
      (r : EcuDict), processMessage ecu message fwd = .emitted r →
      (∀ cp, pyInt (pySlice message 30 42) = some cp →
        r.current_power = some (pyDiv cp 100)) ∧
      (∀ le, pyInt (pySlice message 42 60) = some le →
        r.lifetime_energy = some (pyDiv le 10))) ∧
    decodeFrame frameOne = .emitted readingOne ∧
    readingOne.current_power = some (pyDiv 12345 100) ∧
    readingOne.model = some "ECU-R" ∧
    readingOne.inverters = some [("406000111222".toList, invOne)] ∧
    invOne.channel_qty = 2 ∧
    invOne.power = [123, 234] ∧
    invOne.voltage = [pyDiv 123 10, pyDiv 234 10] ∧
    invOne.current = [pyDiv 123 100, pyDiv 234 100] := by
  refine ⟨?_, by decide, by decide, by decide, by decide, by decide,
    by decide, by decide, by decide⟩
  intro ecu message fwd r h
  obtain ⟨_, _, dt, le, cp, q, invs, hdt, hle, hcp, hq, hginv, he⟩ :=
    decodeEcu_decoded_inversion (processMessage_emitted_inversion h).2
  constructor
  · intro cp' hcp'
    rw [hcp, Option.some.injEq] at hcp'
    rw [he, ← hcp']
  · intro le' hle'
    rw [hle, Option.some.injEq] at hle'
    rw [he, ← hle']

/-- C6 witness: the universal scale relation applied to `frameOne`. -/
theorem c6_witness : readingOne.current_power = some (pyDiv 12345 100) :=
  (c6_scaling_and_end_to_end.1 EcuDict.empty frameOne (ForwardResult.ok [])
    readingOne (by decide)).1 12345 (by decide)

/-- C8: when a frame's two terminator matches carry the same uid (and its
model code resolves), the emitted inverters mapping holds, under that uid,
exactly the record built from the later (rightmost) occurrence — the
second insertion into the uid-keyed dict replaces the first one's value. -/
theorem c8_duplicate_uid_last_wins (ecu r : EcuDict) (message : List Char)
    (fwd : ForwardResult) (invs : List (List Char × Inverter)) (s1 s2 : ℕ)
    (mr : InverterModel)
    (h : processMessage ecu message fwd = .emitted r)
    (hinvs : r.inverters = some invs)
    (hem : endMatches message = [s1, s2])
    (_huid : uidAt message s1 = uidAt message s2)
    (hmr : mr ∈ INVERTER_MODELS)
    (hc : codeAt message s2 ∈ mr.model_codes) :
    dictGet invs (uidAt message s2) = builtInverter message 1 s2 mr := by
  obtain ⟨_, _, dt, le, cp, q, invs', hdt, hle, hcp, hq, hginv, he⟩ :=
    decodeEcu_decoded_inversion (processMessage_emitted_inversion h).2
  have hii : invs' = invs := by
    rw [he] at hinvs
    simpa using hinvs
  subst hii
  unfold get_inverters at hginv
  rw [hem, get_inverters_go_cons] at hginv
  cases hpm1 : processMatch message [] 0 s1 with
  | none => rw [hpm1] at hginv; simp at hginv
  | some d1 =>
    rw [hpm1] at hginv
    dsimp only [] at hginv
    rw [get_inverters_go_cons] at hginv
    cases hpm2 : processMatch message d1 1 s2 with
    | none => rw [hpm2] at hginv; simp at hginv
    | some d2 =>
      rw [hpm2] at hginv
      dsimp only [] at hginv
      rw [get_inverters_go_nil, Option.some.injEq] at hginv
      obtain ⟨inv, hbi, hd2⟩ := processMatch_resolved hmr hc hpm2
      rw [← hginv, hd2, hbi]
      exact dictGet_dictInsert_self _ _ _

/-- C8 witness: in `frameTwo` the uid `406000111222` maps to the record
built from the second match at position 163 with index 1. -/
theorem c8_witness :
    dictGet [("406000111222".toList, invTwoLater)] (uidAt frameTwo 163) =
      builtInverter frameTwo 1 163
        ⟨"YC600/DS3 series", 2, YC600_MODEL_CODES⟩ :=
  c8_duplicate_uid_last_wins EcuDict.empty readingTwo frameTwo
    (ForwardResult.ok []) [("406000111222".toList, invTwoLater)] 77 163
    ⟨"YC600/DS3 series", 2, YC600_MODEL_CODES⟩ (by decide) (by decide)
    (by decide) (by decide) (by decide) (by decide)

/-- C9 counterexample: two different valid frames on one connection.  The
handler's single `ecu` dict (created once, before the `while True` loop) is
the object handed to the callback at each emission; after the connection the
shared dict holds the second reading, so the object emitted first no
longer holds `readingOne` — the later decode mutated it. -/
theorem c9_counterexample :
    runConn EcuDict.empty
      [(frameOne, ForwardResult.ok []), (frameStale, ForwardResult.ok [])] =
      ([readingOne, readingStale], readingStale) ∧
    readingOne ≠ readingStale := by
  constructor <;> decide

/-- C9 (amended): decoding is deterministic in content — a successful
decode overwrites every field, so byte-identical frames always produce
structurally equal readings, independently of the dict's previous state.
But the handler reuses one dict per connection: after two emissions the
shared dict (the object both callback invocations received) holds the
second reading, so a later decode mutates the previously emitted one. -/
theorem c9_determinism_and_shared_dict :
    (∀ (ecu ecu' : EcuDict) (message : List Char) (e : EcuDict),
      decodeEcu ecu message = .decoded e → decodeEcu ecu' message = .decoded e) ∧
    (∀ (ecu e1 e2 : EcuDict) (m1 m2 : List Char) (f1 f2 : ForwardResult),
      processMessage ecu m1 f1 = .emitted e1 →
      processMessage e1 m2 f2 = .emitted e2 →
      runConn ecu [(m1, f1), (m2, f2)] = ([e1, e2], e2)) := by
  constructor
  · exact fun ecu ecu' message e h => decodeEcu_decoded_congr h
  · intro ecu e1 e2 m1 m2 f1 f2 h1 h2
    rw [runConn_cons, h1]
    dsimp only []
    rw [runConn_cons, h2]
    dsimp only []
    rw [runConn_nil]

/-- C9 witness: the shared-dict behaviour at two concrete frames. -/
theorem c9_witness :
    runConn EcuDict.empty
      [(frameOne, ForwardResult.ok []),
       (frameUnknownModel, ForwardResult.ok [])] =
      ([readingOne, readingUnknownModel], readingUnknownModel) :=
  c9_determinism_and_shared_dict.2 EcuDict.empty readingOne
    readingUnknownModel frameOne frameUnknownModel (ForwardResult.ok [])
    (ForwardResult.ok []) (by decide) (by decide)
